import Mathlib

/-!
Shallow embedding of the chirpy HTTP service (github.com/ShepBook/chirpy)
for checking its natural-language specification.

The embedding covers:
* the method-restriction decorator (`MethodRestriction` in src/main.go,
  identical to the unexported `methodRestriction` in
  src/internal/http/http.go);
* the hit-counter state (`apiConfig.fileserverHits`, an `atomic.Int32`),
  its metrics middleware (`middlewareMetricsInc`), the metrics handler
  (`handlerMetrics`) and the reset handler (`handlerReset`) from
  src/main.go;
* the chirp-validation handler (`HandleValidateChirp` in
  src/internal/http/http.go): the JSON decoding step
  (`json.NewDecoder(r.Body).Decode` into `struct Body string`) and the
  140-code-point length check translated from the source, and the
  profanity-cleaning acceptance payload modelled from the spec (its Go
  source is exercised by the repository's tests but is not present under
  src/, where the handler still answers with a plain valid flag).

HTTP handlers are modelled as pure functions from a request (and, where
relevant, an explicit state) to a response (and the successor state).
Machine integers keep Go's `int32` wraparound semantics via `int32wrap`.
-/

/-- An HTTP response as the handlers of this repository build one: a
status code, an optional `Content-Type` header, an optional `Allow`
header, and the bytes written to the body. -/
structure Response where
  status : Nat
  contentType : Option String
  allow : Option String
  body : String
  deriving DecidableEq

/-- The part of an HTTP request the modelled handlers inspect besides the
body: the request method. -/
structure Request where
  method : String
  deriving DecidableEq

/-- Translation of `MethodRestriction` (src/main.go, lines 41-50; the
identical unexported `methodRestriction` lives in
src/internal/http/http.go): if the request method differs from the
allowed one, set the `Allow` header, answer 405 with an empty body and
return without calling `next`; otherwise delegate to `next` unchanged.
The type `sigma` stands for whatever state the wrapped handler may touch
(the Go handler's side effects). -/
def MethodRestriction {sigma : Type} (method : String)
    (next : Request → sigma → Response × sigma) :
    Request → sigma → Response × sigma :=
  fun r w =>
    if r.method ≠ method then
      (⟨405, none, some method, ""⟩, w)
    else
      next r w

/-- Two's-complement wraparound to Go's `int32` range, used by the
`atomic.Int32` hit counter: the result is in `[-2^31, 2^31)` and agrees
with the argument modulo `2^32`. -/
def int32wrap (x : Int) : Int :=
  (x + 2147483648) % 4294967296 - 2147483648

/-- The mutable state the metrics handlers of src/main.go see: the
`fileserverHits` counter of `apiConfig` (an `atomic.Int32`, kept as an
`Int` in the `int32` range) together with the rest of the world. -/
structure MetricsState (sigma : Type) where
  fileserverHits : Int
  world : sigma
  deriving DecidableEq

/-- Translation of `(*apiConfig).middlewareMetricsInc` (src/main.go,
lines 21-26): `cfg.fileserverHits.Add(1)` followed unconditionally by
`next.ServeHTTP(w, r)`. -/
def middlewareMetricsInc {sigma : Type}
    (next : Request → MetricsState sigma → Response × MetricsState sigma) :
    Request → MetricsState sigma → Response × MetricsState sigma :=
  fun r s => next r ⟨int32wrap (s.fileserverHits + 1), s.world⟩

/-- Translation of `(*apiConfig).handlerMetrics` (src/main.go, lines
28-32): set `Content-Type: text/plain; charset=utf-8`, answer 200, and
write `Hits: ` followed by the decimal rendering of the loaded counter
(`fmt.Fprintf(w, "Hits: %d", ...)`). The state is left untouched. -/
def handlerMetrics {sigma : Type} (_r : Request) (s : MetricsState sigma) :
    Response × MetricsState sigma :=
  (⟨200, some "text/plain; charset=utf-8", none,
    "Hits: " ++ toString s.fileserverHits⟩, s)

/-- Translation of `(*apiConfig).handlerReset` (src/main.go, lines
34-37): `cfg.fileserverHits.Store(0)` then `WriteHeader(200)`; nothing
is written to the body and no header is set. -/
def handlerReset {sigma : Type} (_r : Request) (s : MetricsState sigma) :
    Response × MetricsState sigma :=
  (⟨200, none, none, ""⟩, ⟨0, s.world⟩)

/-- The three operations the program ever performs on the hit counter:
`Add(1)` from the metrics middleware, `Load()` from the metrics handler,
and `Store(0)` from the reset handler. -/
inductive CounterOp where
  | increment
  | read
  | reset
  deriving DecidableEq

/-- Effect of one counter operation on the stored `int32` value. -/
def counterStep (v : Int) : CounterOp → Int
  | .increment => int32wrap (v + 1)
  | .read => v
  | .reset => 0

/-- The counter value after running a sequence of operations from the
zero value an `apiConfig` starts with. -/
def runCounter (ops : List CounterOp) : Int :=
  ops.foldl counterStep 0

/-- Bookkeeping for the overflow analysis: how a counter operation
changes the number of increments performed since the last reset. -/
def incTally (k : Nat) : CounterOp → Nat
  | .increment => k + 1
  | .read => k
  | .reset => 0

/-- Number of increments performed since the last reset (or since the
start, if no reset occurred) in a sequence of counter operations. -/
def incsSinceReset (ops : List CounterOp) : Nat :=
  ops.foldl incTally 0

theorem counterStep_increment (v : Int) :
    counterStep v CounterOp.increment = int32wrap (v + 1) := rfl

theorem counterStep_read (v : Int) : counterStep v CounterOp.read = v := rfl

theorem counterStep_reset (v : Int) : counterStep v CounterOp.reset = 0 := rfl

theorem incTally_increment (k : Nat) : incTally k CounterOp.increment = k + 1 := rfl

theorem incTally_read (k : Nat) : incTally k CounterOp.read = k := rfl

theorem incTally_reset (k : Nat) : incTally k CounterOp.reset = 0 := rfl

theorem int32wrap_zero : int32wrap 0 = 0 := by
  decide

theorem int32wrap_wrap_add_one (x : Int) :
    int32wrap (int32wrap x + 1) = int32wrap (x + 1) := by
  unfold int32wrap
  omega

theorem int32wrap_of_small (n : Nat) (h : n < 2147483648) :
    int32wrap (n : Int) = (n : Int) := by
  unfold int32wrap
  omega

theorem foldl_counterStep_wrap (ops : List CounterOp) :
    ∀ k : Nat, ops.foldl counterStep (int32wrap (k : Int)) =
      int32wrap ((ops.foldl incTally k : Nat) : Int) := by
  induction ops with
  | nil =>
    intro k
    rw [List.foldl_nil, List.foldl_nil]
  | cons op tl ih =>
    intro k
    cases op with
    | increment =>
      have hcast : int32wrap ((k : Int) + 1) = int32wrap (((k + 1 : Nat) : Int)) := by
        have h : ((k : Int) + 1) = (((k + 1 : Nat) : Int)) := by omega
        rw [h]
      rw [List.foldl_cons, List.foldl_cons, counterStep_increment,
        incTally_increment, int32wrap_wrap_add_one, hcast]
      exact ih (k + 1)
    | read =>
      rw [List.foldl_cons, List.foldl_cons, counterStep_read, incTally_read]
      exact ih k
    | reset =>
      have h0 : (0 : Int) = int32wrap (((0 : Nat) : Int)) := by
        rw [Nat.cast_zero, int32wrap_zero]
      rw [List.foldl_cons, List.foldl_cons, counterStep_reset, incTally_reset, h0]
      exact ih 0

theorem runCounter_eq_wrap_incs (ops : List CounterOp) :
    runCounter ops = int32wrap ((incsSinceReset ops : Nat) : Int) := by
  have h := foldl_counterStep_wrap ops 0
  rw [Nat.cast_zero, int32wrap_zero] at h
  unfold runCounter incsSinceReset
  exact h

theorem incTally_replicate_increment (n : Nat) :
    ∀ k : Nat, (List.replicate n CounterOp.increment).foldl incTally k = k + n := by
  induction n with
  | zero =>
    intro k
    rw [List.replicate_zero, List.foldl_nil]
    omega
  | succ m ih =>
    intro k
    rw [List.replicate_succ, List.foldl_cons, incTally_increment]
    have h := ih (k + 1)
    omega

/-- C4: for every allowed method and wrapped handler, the guarded handler
produced by `MethodRestriction` answers any request with a different
method by 405 with the `Allow` header set to exactly the allowed method,
leaving the world untouched and never invoking the wrapped handler (the
result does not mention `next` at all); on a request with the matching
method it delegates to the wrapped handler unchanged. -/
theorem method_restriction_blocks_and_delegates {sigma : Type} (m : String)
    (next : Request → sigma → Response × sigma) (r : Request) (w : sigma) :
    (r.method ≠ m → MethodRestriction m next r w = (⟨405, none, some m, ""⟩, w)) ∧
    (r.method = m → MethodRestriction m next r w = next r w) := by
  constructor
  · intro h
    simp [MethodRestriction, h]
  · intro h
    simp [MethodRestriction, h]

/-- Witness for C4: a POST request against a GET-only guard is answered
405 with `Allow: GET` and the side-effect counter of the wrapped handler
stays at 0, while a GET request is passed through (the counter moves to
1). -/
theorem method_restriction_blocks_and_delegates_witness :
    MethodRestriction "GET" (fun _ (n : Nat) => (⟨200, none, none, "hit"⟩, n + 1))
        ⟨"POST"⟩ 0 = (⟨405, none, some "GET", ""⟩, 0) ∧
    MethodRestriction "GET" (fun _ (n : Nat) => (⟨200, none, none, "hit"⟩, n + 1))
        ⟨"GET"⟩ 0 = (⟨200, none, none, "hit"⟩, 1) := by
  have h1 := @method_restriction_blocks_and_delegates Nat "GET"
    (fun _ n => (⟨200, none, none, "hit"⟩, n + 1)) ⟨"POST"⟩ 0
  have h2 := @method_restriction_blocks_and_delegates Nat "GET"
    (fun _ n => (⟨200, none, none, "hit"⟩, n + 1)) ⟨"GET"⟩ 0
  exact ⟨h1.1 (by decide), (h2.2 rfl).trans rfl⟩

/-- C5 (amended): on every invocation the metrics middleware applies the
`int32` increment `Add(1)` to the hit counter and then delegates to the
wrapped handler unconditionally, with no other change to the state; the
update is an increment by exactly 1 whenever the counter lies strictly
below the top `int32` value 2147483647 (at the top it wraps around, see
the counterexample). -/
theorem middleware_increments_before_delegating {sigma : Type}
    (next : Request → MetricsState sigma → Response × MetricsState sigma)
    (r : Request) (v : Int) (w : sigma) :
    middlewareMetricsInc next r ⟨v, w⟩ = next r ⟨int32wrap (v + 1), w⟩ ∧
    (-2147483648 ≤ v → v < 2147483647 → int32wrap (v + 1) = v + 1) := by
  constructor
  · rfl
  · intro h1 h2
    unfold int32wrap
    omega

/-- Witness for C5: at counter value 41 the middleware hands the wrapped
handler the state with counter 42 and otherwise returns the handler's
result unchanged. -/
theorem middleware_increments_before_delegating_witness :
    middlewareMetricsInc (fun _ s => (⟨200, none, none, ""⟩, s)) ⟨"GET"⟩
        ⟨41, ()⟩ = (⟨200, none, none, ""⟩, ⟨42, ()⟩) ∧
    int32wrap (41 + 1) = 41 + 1 := by
  have h := @middleware_increments_before_delegating Unit
    (fun _ s => (⟨200, none, none, ""⟩, s)) ⟨"GET"⟩ 41 ()
  exact ⟨h.1.trans (by decide), h.2 (by decide) (by decide)⟩

/-- Counterexample to C5 as stated: when the counter holds the top
`int32` value 2147483647, one invocation of the middleware leaves it at
-2147483648, which is not the old value incremented by exactly 1 (the
`atomic.Int32` wraps around). -/
theorem middleware_increment_overflow_counterexample :
    (middlewareMetricsInc (fun _ s => (⟨200, none, none, ""⟩, s)) ⟨"GET"⟩
        ⟨2147483647, ()⟩).2.fileserverHits = -2147483648 ∧
    (-2147483648 : Int) ≠ 2147483647 + 1 := by
  constructor
  · decide
  · decide

/-- C6 (amended): starting from the zero counter of a fresh `apiConfig`,
after any sequence of increment, read and reset operations in which
fewer than 2^31 increments have happened since the last reset, the
counter is the exact number of those increments and in particular is
never negative (at 2^31 increments the `int32` wraps to -2^31, see the
counterexample). -/
theorem counter_nonneg_below_overflow (ops : List CounterOp)
    (h : incsSinceReset ops < 2147483648) :
    0 ≤ runCounter ops ∧ runCounter ops = ((incsSinceReset ops : Nat) : Int) := by
  have hrun := runCounter_eq_wrap_incs ops
  rw [int32wrap_of_small (incsSinceReset ops) h] at hrun
  exact ⟨hrun.symm ▸ Nat.cast_nonneg _, hrun⟩

/-- Witness for C6: after two increments, a reset and one more increment
the counter reads exactly 1 and is nonnegative. -/
theorem counter_nonneg_below_overflow_witness :
    0 ≤ runCounter [CounterOp.increment, CounterOp.increment,
        CounterOp.reset, CounterOp.increment] ∧
    runCounter [CounterOp.increment, CounterOp.increment,
        CounterOp.reset, CounterOp.increment] = 1 := by
  have h := counter_nonneg_below_overflow [CounterOp.increment,
    CounterOp.increment, CounterOp.reset, CounterOp.increment] (by decide)
  exact ⟨h.1, h.2.trans (by decide)⟩

/-- Counterexample to C6 as stated: the state reached from 0 by the
sequence of 2^31 consecutive increments holds the negative value -2^31,
so the counter is not nonnegative under every operation sequence (the
2^31-th `Add(1)` overflows the `int32`). -/
theorem counter_negative_after_overflow :
    runCounter (List.replicate 2147483648 CounterOp.increment) = -2147483648 ∧
    (-2147483648 : Int) < 0 := by
  have h := runCounter_eq_wrap_incs (List.replicate 2147483648 CounterOp.increment)
  have h2 : incsSinceReset (List.replicate 2147483648 CounterOp.increment) =
      2147483648 := by
    unfold incsSinceReset
    have h3 := incTally_replicate_increment 2147483648 0
    omega
  rw [h2] at h
  have h4 : int32wrap (((2147483648 : Nat) : Int)) = -2147483648 := by decide
  rw [h4] at h
  exact ⟨h, by decide⟩

/-- C7: for every counter value, a request to the metrics endpoint is
answered 200 with the plain-text content type and a body that is exactly
the string `Hits: ` followed by the decimal rendering of the counter,
with nothing after it, and the counter (and the rest of the state) is
left unchanged. -/
theorem metrics_handler_reports_decimal_hits {sigma : Type} (r : Request)
    (v : Int) (w : sigma) :
    handlerMetrics r ⟨v, w⟩ =
      (⟨200, some "text/plain; charset=utf-8", none, "Hits: " ++ toString v⟩,
        ⟨v, w⟩) := rfl

/-- C8: for every prior counter value, the reset handler stores 0 into
the counter, leaves the rest of the state alone, and answers 200 with an
empty body. -/
theorem reset_handler_zeroes_counter {sigma : Type} (r : Request)
    (v : Int) (w : sigma) :
    handlerReset r ⟨v, w⟩ = (⟨200, none, none, ""⟩, ⟨0, w⟩) := rfl

/-- The whitespace characters the Go JSON scanner skips between tokens
(space, tab, newline, carriage return — RFC 8259). -/
def isJsonSpace (c : Char) : Bool :=
  c = ' ' || c = '\t' || c = '\n' || c = '\r'

/-- Drop leading JSON whitespace. -/
def skipSpace : List Char → List Char
  | [] => []
  | c :: rest => if isJsonSpace c then skipSpace rest else c :: rest

/-- Value of one hexadecimal digit, as the Go scanner accepts it inside a
`\u` escape. -/
def hexVal (c : Char) : Option Nat :=
  if '0' ≤ c ∧ c ≤ '9' then some (c.toNat - 48)
  else if 'a' ≤ c ∧ c ≤ 'f' then some (c.toNat - 87)
  else if 'A' ≤ c ∧ c ≤ 'F' then some (c.toNat - 55)
  else none

/-- Scanner for the remainder of a JSON string literal (the opening quote
already consumed), following Go's `encoding/json` semantics: the escapes
are the eight simple ones plus `\uXXXX`; a valid surrogate pair combines
into one code point; a lone or malformed surrogate becomes U+FFFD (not an
error); an unescaped control character below 0x20 is a syntax error. The
fuel argument only bounds the recursion and is chosen large enough by
the `scanString` wrapper (every step consumes at least one input
character). -/
def scanStringAux : Nat → List Char → List Char → Option (String × List Char)
  | 0, _, _ => none
  | _ + 1, [], _ => none
  | fuel + 1, c :: rest, acc =>
    if c = '"' then some (⟨acc.reverse⟩, rest)
    else if c = '\\' then
      match rest with
      | [] => none
      | e :: rest2 =>
        if e = '"' then scanStringAux fuel rest2 ('"' :: acc)
        else if e = '\\' then scanStringAux fuel rest2 ('\\' :: acc)
        else if e = '/' then scanStringAux fuel rest2 ('/' :: acc)
        else if e = 'b' then scanStringAux fuel rest2 ('\x08' :: acc)
        else if e = 'f' then scanStringAux fuel rest2 ('\x0c' :: acc)
        else if e = 'n' then scanStringAux fuel rest2 ('\n' :: acc)
        else if e = 'r' then scanStringAux fuel rest2 ('\r' :: acc)
        else if e = 't' then scanStringAux fuel rest2 ('\t' :: acc)
        else if e = 'u' then
          match rest2 with
          | h1 :: h2 :: h3 :: h4 :: rest3 =>
            match hexVal h1, hexVal h2, hexVal h3, hexVal h4 with
            | some a, some b, some c2, some d =>
              let n := ((a * 16 + b) * 16 + c2) * 16 + d
              if 0xD800 ≤ n ∧ n ≤ 0xDBFF then
                match rest3 with
                | '\\' :: 'u' :: g1 :: g2 :: g3 :: g4 :: rest4 =>
                  match hexVal g1, hexVal g2, hexVal g3, hexVal g4 with
                  | some p, some q, some r2, some s2 =>
                    let m := ((p * 16 + q) * 16 + r2) * 16 + s2
                    if 0xDC00 ≤ m ∧ m ≤ 0xDFFF then
                      scanStringAux fuel rest4
                        (Char.ofNat (0x10000 + (n - 0xD800) * 0x400 + (m - 0xDC00)) :: acc)
                    else scanStringAux fuel rest3 ('�' :: acc)
                  | _, _, _, _ => scanStringAux fuel rest3 ('�' :: acc)
                | _ => scanStringAux fuel rest3 ('�' :: acc)
              else if 0xDC00 ≤ n ∧ n ≤ 0xDFFF then
                scanStringAux fuel rest3 ('�' :: acc)
              else
                scanStringAux fuel rest3 (Char.ofNat n :: acc)
            | _, _, _, _ => none
          | _ => none
        else none
    else if c.toNat < 32 then none
    else scanStringAux fuel rest (c :: acc)

/-- Scan a JSON string literal body (after the opening quote), returning
the decoded string and the input after the closing quote. -/
def scanString (l : List Char) : Option (String × List Char) :=
  scanStringAux (l.length + 1) l []

/-- Split off the maximal leading run of decimal digits. -/
def takeDigits : List Char → List Char × List Char
  | [] => ([], [])
  | c :: rest =>
    if '0' ≤ c ∧ c ≤ '9' then
      let p := takeDigits rest
      (c :: p.1, p.2)
    else ([], c :: rest)

/-- Require at least one decimal digit, returning the input after the
digit run. -/
def parseDigitsPlus (l : List Char) : Option (List Char) :=
  match takeDigits l with
  | ([], _) => none
  | (_ :: _, r) => some r

/-- Optional exponent part of a JSON number (`e`/`E`, optional sign, one
or more digits). -/
def parseExpPart (l : List Char) : Option (List Char) :=
  match l with
  | [] => some []
  | c :: rest =>
    if c = 'e' ∨ c = 'E' then
      match rest with
      | [] => none
      | s :: rest2 =>
        if s = '+' ∨ s = '-' then parseDigitsPlus rest2 else parseDigitsPlus rest
    else some (c :: rest)

/-- Optional fraction part of a JSON number (`.` and one or more digits),
followed by the optional exponent part. -/
def parseFracPart (l : List Char) : Option (List Char) :=
  match l with
  | '.' :: rest =>
    match parseDigitsPlus rest with
    | some r => parseExpPart r
    | none => none
  | _ => parseExpPart l

/-- Body of a JSON number after an optional leading minus sign: either a
single `0` or a nonzero digit followed by more digits, then fraction and
exponent parts, per the RFC 8259 grammar Go's scanner implements. The
scanner stops at the first character that cannot extend the number. -/
def parseNumberTail (l : List Char) : Option (List Char) :=
  match l with
  | [] => none
  | c :: rest =>
    if c = '0' then parseFracPart rest
    else if '1' ≤ c ∧ c ≤ '9' then parseFracPart (takeDigits rest).2
    else none

/-- Shape of a parsed JSON value. Numbers carry no payload: the chirp
handler never reads a numeric value, only needs to scan past them. -/
inductive JsonValue where
  | null
  | bool (b : Bool)
  | num
  | str (s : String)
  | arr (elems : List JsonValue)
  | obj (fields : List (String × JsonValue))

mutual

/-- One JSON value from the front of the input, as Go's
`json.Decoder.Decode` reads it: leading whitespace skipped, then an
object, array, string, number, `true`, `false` or `null`; anything else
is a syntax error (`none`). Whatever follows the value is returned
unconsumed — the decoder does not look at it. The fuel decreases at
every nesting step and the `goDecodeOne` wrapper supplies more fuel than
any input can use, since every nesting level consumes at least one
character. -/
def parseValue : Nat → List Char → Option (JsonValue × List Char)
  | 0, _ => none
  | fuel + 1, input =>
    match skipSpace input with
    | [] => none
    | c :: rest =>
      if c = '"' then
        match scanString rest with
        | some (s, r) => some (.str s, r)
        | none => none
      else if c = '\x7b' then
        match skipSpace rest with
        | '\x7d' :: r => some (.obj [], r)
        | l => parseMembers fuel l []
      else if c = '[' then
        match skipSpace rest with
        | ']' :: r => some (.arr [], r)
        | l => parseElems fuel l []
      else if c = 't' then
        match rest with
        | 'r' :: 'u' :: 'e' :: r => some (.bool true, r)
        | _ => none
      else if c = 'f' then
        match rest with
        | 'a' :: 'l' :: 's' :: 'e' :: r => some (.bool false, r)
        | _ => none
      else if c = 'n' then
        match rest with
        | 'u' :: 'l' :: 'l' :: r => some (.null, r)
        | _ => none
      else if c = '-' then
        match parseNumberTail rest with
        | some r => some (.num, r)
        | none => none
      else if '0' ≤ c ∧ c ≤ '9' then
        match parseNumberTail (c :: rest) with
        | some r => some (.num, r)
        | none => none
      else none

/-- The members of a JSON object after the opening brace (the empty
object already handled): a quoted key, a colon, a value, then a comma to
continue or a closing brace to finish. -/
def parseMembers : Nat → List Char → List (String × JsonValue) →
    Option (JsonValue × List Char)
  | 0, _, _ => none
  | fuel + 1, input, acc =>
    match skipSpace input with
    | '"' :: r =>
      match scanString r with
      | some (k, r2) =>
        match skipSpace r2 with
        | ':' :: r3 =>
          match parseValue fuel r3 with
          | some (v, r4) =>
            match skipSpace r4 with
            | ',' :: r5 => parseMembers fuel r5 (acc ++ [(k, v)])
            | '\x7d' :: r5 => some (.obj (acc ++ [(k, v)]), r5)
            | _ => none
          | none => none
        | _ => none
      | none => none
    | _ => none

/-- The elements of a JSON array after the opening bracket (the empty
array already handled): a value, then a comma to continue or a closing
bracket to finish. -/
def parseElems : Nat → List Char → List JsonValue →
    Option (JsonValue × List Char)
  | 0, _, _ => none
  | fuel + 1, input, acc =>
    match parseValue fuel input with
    | some (v, r) =>
      match skipSpace r with
      | ',' :: r2 => parseElems fuel r2 (acc ++ [v])
      | ']' :: r2 => some (.arr (acc ++ [v]), r2)
      | _ => none
    | none => none

end

/-- Read one JSON value from the front of the input, ignoring whatever
follows it — the semantics of a single `json.Decoder.Decode` call on a
request body. -/
def goDecodeOne (input : List Char) : Option (JsonValue × List Char) :=
  parseValue (input.length + 1) input

/-- ASCII lower-casing of one character, enough for the case-insensitive
comparisons this program performs (the JSON field name `body` and the
all-ASCII profanity list). -/
def asciiLower (c : Char) : Char :=
  if 'A' ≤ c ∧ c ≤ 'Z' then Char.ofNat (c.toNat + 32) else c

/-- ASCII lower-casing of a character list. -/
def lowerList (l : List Char) : List Char :=
  l.map asciiLower

/-- Whether an object key selects the `Body` field of
`validateChirpRequest` (json tag `body`). Go matches struct fields
case-insensitively, so `Body` or `BODY` select it as well. -/
def keyMatchesBody (k : String) : Bool :=
  lowerList k.data == "body".data

/-- How Go unmarshals a parsed JSON object into `validateChirpRequest`
(src/internal/http/http.go, lines 162-164): keys are processed in order;
a matching key with a string value assigns the field (a later duplicate
overwrites an earlier one), a matching key with `null` leaves it
untouched, a matching key with any other value is an unmarshal type
error which makes `Decode` return an error; keys that match no field are
ignored. The `Body` field starts as the empty string. -/
def assignBodyFields : List (String × JsonValue) → Bool → String → Option String
  | [], typeErr, b => if typeErr then none else some b
  | (k, v) :: rest, typeErr, b =>
    if keyMatchesBody k then
      match v with
      | .str s => assignBodyFields rest typeErr s
      | .null => assignBodyFields rest typeErr b
      | _ => assignBodyFields rest true b
    else
      assignBodyFields rest typeErr b

/-- The decode step of `HandleValidateChirp`
(`json.NewDecoder(r.Body).Decode(&req)`, src/internal/http/http.go,
line 179): read one JSON value from the request body; a syntax error or
end of input is an error (`none`); a top-level object fills the struct
field by field; a top-level `null` leaves the struct at its zero value;
any other top-level value cannot be unmarshaled into the struct and is
an error. On success the decoded `Body` string is returned. -/
def decodeValidateChirp (input : String) : Option String :=
  match goDecodeOne input.data with
  | some (.obj fields, _) => assignBodyFields fields false ""
  | some (.null, _) => some ""
  | some _ => none
  | none => none

/-- Modelled from the spec: the fixed, ordered profanity list of §3
(`kerfuffle`, `sharbert`, `fornax`), lowercase, immutable. Its Go source
(the `cleanProfanity` helper exercised by the repository's tests through
`CleanProfanityForTest`) is not present under src/. -/
def profaneWords : List (List Char) :=
  ["kerfuffle".data, "sharbert".data, "fornax".data]

/-- Modelled from the spec (§4.5 ProfanityFilter): a maximal
whitespace-delimited token is replaced by `****` exactly when it equals a
word of the profanity list case-insensitively; anything else, including
punctuation-adjacent occurrences and profane substrings of longer words,
is left alone. -/
def replaceToken (tok : List Char) : List Char :=
  if profaneWords.contains (lowerList tok) then "****".data else tok

/-- Modelled from the spec (§4.5): the word-boundary characters of the
filter — a token is bounded by whitespace or the start or end of the
string. -/
def isFilterSpace (c : Char) : Bool :=
  c = ' ' || c = '\t' || c = '\n' || c = '\r' || c = '\x0b' || c = '\x0c'

/-- Modelled from the spec (§4.5 and the §9 design note): walk the text
accumulating the current whitespace-free token (in reverse); at each
whitespace character or at the end of the text, emit the token through
`replaceToken` and keep the delimiter itself. Every token is inspected,
so adjacent profane words are all redacted and no delimiter is consumed
by a preceding match. -/
def cleanChars : List Char → List Char → List Char
  | [], cur => replaceToken cur.reverse
  | c :: rest, cur =>
    if isFilterSpace c then
      replaceToken cur.reverse ++ c :: cleanChars rest []
    else
      cleanChars rest (c :: cur)

/-- Modelled from the spec (§4.5 ProfanityFilter `redact`): whole-word,
case-insensitive replacement of every profanity-list word by `****`,
with whitespace and string boundaries as the only word delimiters. The
Go implementation this models (`cleanProfanity`) is exercised by the
repository's tests but its source is not under src/. -/
def cleanProfanity (s : String) : String :=
  ⟨cleanChars s.data []⟩

/-- Lowercase hexadecimal digit, as Go's JSON encoder writes `\u00xx`
escapes. -/
def hexDigitLower (n : Nat) : Char :=
  if n < 10 then Char.ofNat (48 + n) else Char.ofNat (87 + n)

/-- How Go's `encoding/json` encoder writes one character of a string
value with the default HTML escaping of `json.NewEncoder`: quote,
backslash, newline, carriage return and tab get two-character escapes;
other control characters below 0x20 get `\u00xx`; `<`, `>`, `&` and the
line separators U+2028/U+2029 get `\uXXXX`; everything else is written
as itself. -/
def escapeJsonChar (c : Char) : List Char :=
  if c = '"' then ['\\', '"']
  else if c = '\\' then ['\\', '\\']
  else if c = '\n' then ['\\', 'n']
  else if c = '\r' then ['\\', 'r']
  else if c = '\t' then ['\\', 't']
  else if c.toNat < 32 then
    ['\\', 'u', '0', '0', hexDigitLower (c.toNat / 16), hexDigitLower (c.toNat % 16)]
  else if c = '<' then ['\\', 'u', '0', '0', '3', 'c']
  else if c = '>' then ['\\', 'u', '0', '0', '3', 'e']
  else if c = '&' then ['\\', 'u', '0', '0', '2', '6']
  else if c.toNat = 8232 then ['\\', 'u', '2', '0', '2', '8']
  else if c.toNat = 8233 then ['\\', 'u', '2', '0', '2', '9']
  else [c]

/-- A Go-encoded JSON string literal, quotes included. -/
def encodeGoJsonText (s : String) : String :=
  ⟨'"' :: (s.data.map escapeJsonChar).flatten ++ ['"']⟩

/-- The bytes `json.NewEncoder(w).Encode(errorResponse{Error: msg})`
writes (src/internal/http/http.go, lines 170-172): the one-field object
followed by the newline `Encode` appends. -/
def encodeErrorBody (msg : String) : String :=
  "\x7b\"error\":" ++ encodeGoJsonText msg ++ "\x7d\n"

/-- The bytes the acceptance branch writes for the cleaned-body response
`\x7b"cleaned_body": ...\x7d` the repository's tests expect, newline
appended by `Encode`. The response struct has this single field;
modelled from the spec (§4.4) since the Go source of this branch is not
under src/. -/
def encodeCleanedBody (s : String) : String :=
  "\x7b\"cleaned_body\":" ++ encodeGoJsonText s ++ "\x7d\n"

/-- Translation of `HandleValidateChirp` (src/internal/http/http.go,
lines 175-198), taking the request body text as input: a failed decode
is answered 400 `application/json` with error `Invalid JSON`; a decoded
body of more than 140 runes (`len([]rune(req.Body)) > 140`) is answered
400 with error `Chirp is too long`; otherwise the chirp is accepted with
a 200 response. The acceptance payload is the cleaned body, modelled
from the spec (§4.4): the version of this handler the repository's tests
exercise responds `\x7b"cleaned_body": ...\x7d`, while the copy under
src/ still responds a plain valid flag. -/
def HandleValidateChirp (rawBody : String) : Response :=
  match decodeValidateChirp rawBody with
  | none =>
    ⟨400, some "application/json", none, encodeErrorBody "Invalid JSON"⟩
  | some body =>
    if body.data.length > 140 then
      ⟨400, some "application/json", none, encodeErrorBody "Chirp is too long"⟩
    else
      ⟨200, some "application/json", none, encodeCleanedBody (cleanProfanity body)⟩

/-- A whole request body is parseable JSON in the sense of the spec
(§4.4 step 1: "Parse rawJSON", §7 "client JSON unparsable"): it consists
of exactly one JSON value, possibly surrounded by whitespace, with
nothing else after it. Stated from the spec's words for comparison with
the code, whose decoder stops after the first value. -/
def isParseableJSONDocument (s : String) : Bool :=
  match goDecodeOne s.data with
  | some (_, rest) => (skipSpace rest).isEmpty
  | none => false

theorem assignBodyFields_no_match (fields : List (String × JsonValue))
    (typeErr : Bool) (b : String)
    (h : ∀ kv ∈ fields, keyMatchesBody kv.1 = false) :
    assignBodyFields fields typeErr b = if typeErr then none else some b := by
  induction fields generalizing typeErr b with
  | nil => rfl
  | cons kv tl ih =>
    obtain ⟨k, v⟩ := kv
    have hk : keyMatchesBody k = false := h (k, v) (List.mem_cons_self _ _)
    simp only [assignBodyFields, hk, Bool.false_eq_true, if_false]
    exact ih typeErr b (fun kv2 hkv2 => h kv2 (List.mem_cons_of_mem _ hkv2))

/-- C1: every POST body that decodes to a chirp request with body `s` of
at most 140 code points is answered 200 with content type
`application/json` and the JSON object whose single field `cleaned_body`
holds `s` run through the profanity filter. -/
theorem validate_chirp_accepts_and_cleans (input s : String)
    (hdec : decodeValidateChirp input = some s)
    (hlen : s.data.length ≤ 140) :
    HandleValidateChirp input =
      ⟨200, some "application/json", none,
        encodeCleanedBody (cleanProfanity s)⟩ := by
  simp only [HandleValidateChirp, hdec]
  rw [if_neg (by omega)]

/-- Witness for C1: the end-to-end example of the spec —
`\x7b"body":"What a kerfuffle this is"\x7d` yields 200 with
`\x7b"cleaned_body":"What a **** this is"\x7d`. -/
theorem validate_chirp_accepts_and_cleans_witness :
    HandleValidateChirp "\x7b\"body\":\"What a kerfuffle this is\"\x7d" =
      ⟨200, some "application/json", none,
        "\x7b\"cleaned_body\":\"What a **** this is\"\x7d\n"⟩ := by
  have h := validate_chirp_accepts_and_cleans
    "\x7b\"body\":\"What a kerfuffle this is\"\x7d"
    "What a kerfuffle this is" (by decide) (by decide)
  exact h.trans (by decide)

/-- C2: chirp length is counted in Unicode code points (Go runes): a
decoded body of at most 140 code points is accepted with 200, and one of
141 or more code points is rejected with 400 and the error message
`Chirp is too long` — only the code-point count of the body decides,
never its byte length. -/
theorem chirp_length_boundary (input s : String)
    (hdec : decodeValidateChirp input = some s) :
    (s.data.length ≤ 140 → (HandleValidateChirp input).status = 200) ∧
    (141 ≤ s.data.length →
      HandleValidateChirp input =
        ⟨400, some "application/json", none,
          encodeErrorBody "Chirp is too long"⟩) := by
  constructor
  · intro hlen
    simp only [HandleValidateChirp, hdec]
    rw [if_neg (by omega)]
  · intro hlen
    simp only [HandleValidateChirp, hdec]
    rw [if_pos (by omega)]

set_option maxRecDepth 16384 in
/-- Witness for C2: a body of 140 two-byte code points (280 bytes) is
accepted, a body of 141 one-byte code points is rejected as too long. -/
theorem chirp_length_boundary_witness :
    (HandleValidateChirp
      ("\x7b\"body\":\"" ++ String.mk (List.replicate 140 'é') ++ "\"\x7d")).status = 200 ∧
    HandleValidateChirp
        ("\x7b\"body\":\"" ++ String.mk (List.replicate 141 'a') ++ "\"\x7d") =
      ⟨400, some "application/json", none,
        encodeErrorBody "Chirp is too long"⟩ := by
  have hA := chirp_length_boundary
    ("\x7b\"body\":\"" ++ String.mk (List.replicate 140 'é') ++ "\"\x7d")
    (String.mk (List.replicate 140 'é')) (by decide)
  have hB := chirp_length_boundary
    ("\x7b\"body\":\"" ++ String.mk (List.replicate 141 'a') ++ "\"\x7d")
    (String.mk (List.replicate 141 'a')) (by decide)
  exact ⟨hA.1 (by decide), hB.2 (by decide)⟩

/-- Counterexample to C3 as stated: the body `\x7b\x7d]` is not
parseable JSON (a closing bracket follows the complete value), yet the
handler answers 200 with an acceptance body — `Decoder.Decode` reads the
first value `\x7b\x7d` and never looks at the rest. -/
theorem invalid_json_rejection_counterexample :
    isParseableJSONDocument "\x7b\x7d]" = false ∧
    (HandleValidateChirp "\x7b\x7d]").status = 200 ∧
    (HandleValidateChirp "\x7b\x7d]").body =
      "\x7b\"cleaned_body\":\"\"\x7d\n" := by
  decide

/-- C3 (amended): every request body on which the decode step fails —
no JSON value at the front of the body, or a leading value that cannot
be unmarshaled into the chirp request struct — is answered 400 with
content type `application/json` and body `\x7b"error":"Invalid JSON"\x7d`;
only bodies whose leading value decodes are accepted (trailing bytes
after that value are ignored, not rejected). -/
theorem invalid_json_rejected (input : String)
    (hdec : decodeValidateChirp input = none) :
    HandleValidateChirp input =
      ⟨400, some "application/json", none, encodeErrorBody "Invalid JSON"⟩ := by
  simp only [HandleValidateChirp, hdec]

/-- Witness for C3: the spec's own malformed example `\x7binvalid json`
is answered 400 with `\x7b"error":"Invalid JSON"\x7d`. -/
theorem invalid_json_rejected_witness :
    HandleValidateChirp "\x7binvalid json" =
      ⟨400, some "application/json", none,
        "\x7b\"error\":\"Invalid JSON\"\x7d\n"⟩ := by
  exact (invalid_json_rejected "\x7binvalid json" (by decide)).trans (by decide)

/-- C9: a request whose body parses as a JSON object with no key
selecting the `body` field decodes to the empty-string chirp — not an
error — and the handler produces the acceptance response 200. -/
theorem absent_body_field_defaults_empty (input : String)
    (fields : List (String × JsonValue)) (rest : List Char)
    (hparse : goDecodeOne input.data = some (JsonValue.obj fields, rest))
    (hnone : ∀ kv ∈ fields, keyMatchesBody kv.1 = false) :
    decodeValidateChirp input = some "" ∧
    HandleValidateChirp input =
      ⟨200, some "application/json", none,
        encodeCleanedBody (cleanProfanity "")⟩ := by
  have hdec : decodeValidateChirp input = some "" := by
    simp only [decodeValidateChirp, hparse]
    exact assignBodyFields_no_match fields false "" hnone
  refine ⟨hdec, ?_⟩
  simp only [HandleValidateChirp, hdec]
  rw [if_neg (by decide)]

/-- Witness for C9: the empty object `\x7b\x7d` is accepted with the
cleaned empty body. -/
theorem absent_body_field_defaults_empty_witness :
    decodeValidateChirp "\x7b\x7d" = some "" ∧
    HandleValidateChirp "\x7b\x7d" =
      ⟨200, some "application/json", none,
        "\x7b\"cleaned_body\":\"\"\x7d\n"⟩ := by
  have h := absent_body_field_defaults_empty "\x7b\x7d" [] [] rfl
    (by intro kv hkv; cases hkv)
  exact ⟨h.1, h.2.trans (by decide)⟩

/-- C10: the completely empty request body is rejected exactly like
malformed JSON — the decoder's end of input is a decode error, not an
absent `body` field: status 400, content type `application/json`, body
`\x7b"error":"Invalid JSON"\x7d`, the same response a malformed body
receives. -/
theorem empty_body_rejected_like_malformed :
    decodeValidateChirp "" = none ∧
    HandleValidateChirp "" =
      ⟨400, some "application/json", none,
        "\x7b\"error\":\"Invalid JSON\"\x7d\n"⟩ ∧
    HandleValidateChirp "" = HandleValidateChirp "\x7bnot json" := by
  decide
